import Mathlib

/-!
Shallow embedding of `mapproxy/image/__init__.py` (image representation,
merging and encoding) and proofs about it.

The PIL / `cStringIO` collaborators are modelled as executable Lean
functions over an explicit bitmap type; Python exceptions become an error
sum type, and the mutable `ImageSource` object becomes explicit state
passing.
-/

namespace MapproxyImage

/-- Python's `str.lower()` restricted to per-character lowering
(the format names used by the code are ASCII). -/
def strLower (s : String) : String := ⟨s.data.map Char.toLower⟩

/-- Python's `str.startswith(p)`. -/
def strStartsWith (s p : String) : Bool := p.data.isPrefixOf s.data

/-- One pixel: red, green, blue, alpha channel values (0..255).
For mode-`P` (paletted) bitmaps the palette index is stored in `r`
and the other channels are unused. -/
structure Pixel where
  r : Nat
  g : Nat
  b : Nat
  a : Nat
deriving DecidableEq, Repr

/-- PIL image modes that this module manipulates. -/
inductive Mode
  | RGB
  | RGBA
  | P
deriving DecidableEq, Repr

/-- Model of a decoded PIL bitmap: a mode, pixel dimensions, a pixel
grid (total function; only coordinates below the dimensions are
meaningful) and, for mode `P`, a palette of RGB triples. -/
structure Img where
  mode : Mode
  width : Nat
  height : Nat
  pix : Nat → Nat → Pixel
  palette : List (Nat × Nat × Nat) := []

/-- `Image.new(mode, size, color)`: constant bitmap. -/
def Img.new (m : Mode) (size : Nat × Nat) (c : Pixel) : Img :=
  { mode := m, width := size.1, height := size.2, pix := fun _ _ => c }

/-- `img.size` of a decoded bitmap. -/
def Img.sizeOf (i : Img) : Nat × Nat := (i.width, i.height)

/-- The RGB components of a pixel. -/
def Pixel.rgb3 (p : Pixel) : Nat × Nat × Nat := (p.r, p.g, p.b)

/-- The color value PIL reports for one pixel: a bare palette index in
mode `P`, an RGB triple in mode `RGB`, an RGBA quadruple in mode
`RGBA` (Python is dynamically typed here; the sum type reflects that). -/
inductive ColorVal
  | pIdx (i : Nat)
  | rgb (c : Nat × Nat × Nat)
  | rgba (c : Nat × Nat × Nat × Nat)
deriving DecidableEq, Repr

def Img.colorAt (img : Img) (x y : Nat) : ColorVal :=
  match img.mode with
  | .P => .pIdx (img.pix x y).r
  | .RGB => .rgb (img.pix x y).rgb3
  | .RGBA => .rgba ((img.pix x y).r, (img.pix x y).g, (img.pix x y).b, (img.pix x y).a)

/-- All color values of the bitmap, row-major. -/
def Img.colorList (img : Img) : List ColorVal :=
  (List.range img.height).flatMap fun y =>
    (List.range img.width).map fun x => img.colorAt x y

/-- First-occurrence deduplication, with the elements already seen as
accumulator. -/
def dedupFstAux {α : Type} [DecidableEq α] (seen : List α) : List α → List α
  | [] => []
  | c :: rest =>
    if c ∈ seen then dedupFstAux seen rest
    else c :: dedupFstAux (c :: seen) rest

/-- First-occurrence deduplication (the distinct elements of a list,
in first-occurrence order). -/
def dedupFst {α : Type} [DecidableEq α] (l : List α) : List α :=
  dedupFstAux [] l

/-- Index of the first occurrence of `c` (length of the list when absent). -/
def idxOfFst {α : Type} [DecidableEq α] (c : α) : List α → Nat
  | [] => 0
  | d :: rest => if d = c then 0 else idxOfFst c rest + 1

/-- `img.getcolors(maxcolors)`: `none` when the bitmap has more than
`maxcolors` distinct colors, else the list of `(count, color)` pairs. -/
def Img.getcolors (img : Img) (maxcolors : Nat) : Option (List (Nat × ColorVal)) :=
  let distinct := dedupFst img.colorList
  if maxcolors < distinct.length then none
  else some (distinct.map fun c => (img.colorList.count c, c))

/-- `img.getpalette()`: the flat `[r0, g0, b0, r1, g1, b1, ...]` list. -/
def Img.getpalette (img : Img) : List Nat :=
  img.palette.flatMap fun c => [c.1, c.2.1, c.2.2]

/-- The distinct RGB triples of a bitmap, in row-major first-occurrence order. -/
def Img.distinctRGB (img : Img) : List (Nat × Nat × Nat) :=
  dedupFst ((List.range img.height).flatMap fun y =>
    (List.range img.width).map fun x => (img.pix x y).rgb3)

/-- Model of the PIL quantizer capability used by `quantize` (both the
`FASTOCTREE` path and the `convert('RGB').convert('P', ADAPTIVE)` path):
the RGB channels are mapped onto an adaptive palette of at most
`colors` entries.  Exact when the bitmap has at most `colors` distinct
RGB colors, which is the regime the theorems use. -/
def quantize (img : Img) (colors : Nat := 256) : Img :=
  let pal := img.distinctRGB.take colors
  { mode := .P, width := img.width, height := img.height,
    palette := pal,
    pix := fun x y => { r := idxOfFst (img.pix x y).rgb3 pal, g := 0, b := 0, a := 255 } }

/-- Convert a source pixel to the destination mode on paste
(PIL fills alpha with 255 when pasting RGB data into an RGBA canvas). -/
def pxTo (dst : Mode) (src : Mode) (p : Pixel) : Pixel :=
  match dst, src with
  | .RGBA, .RGB => { p with a := 255 }
  | _, _ => p

/-- Integer "over" blend of one channel under mask value `m` (0..255). -/
def blendC (d s m : Nat) : Nat := (s * m + d * (255 - m)) / 255

/-- Blend source over destination with mask value `m`. -/
def blendPx (d s : Pixel) (m : Nat) : Pixel :=
  if m = 255 then s
  else if m = 0 then d
  else { r := blendC d.r s.r m, g := blendC d.g s.g m,
         b := blendC d.b s.b m, a := blendC d.a s.a m }

/-- `dst.paste(src, (0, 0))` without a mask: the source region fully
overwrites the destination. -/
def Img.paste (dst src : Img) : Img :=
  { dst with pix := fun x y =>
      if x < src.width ∧ y < src.height then pxTo dst.mode src.mode (src.pix x y)
      else dst.pix x y }

/-- `dst.paste(src, (0, 0), mask)` where the mask is `src`'s own alpha
channel (the call `img.paste(layer_img, (0, 0), layer_img)`). -/
def Img.pasteMasked (dst src : Img) : Img :=
  { dst with pix := fun x y =>
      if x < src.width ∧ y < src.height then
        blendPx (dst.pix x y) (pxTo dst.mode src.mode (src.pix x y)) (src.pix x y).a
      else dst.pix x y }

/-- `img.paste(value, mask)` on a paletted image: force palette index
`v` wherever the mask is set (the mask produced by `Image.eval` below is
binary, so only the 0/255 cases are exercised). -/
def Img.pasteIndex (dst : Img) (v : Nat) (mask : Nat → Nat → Nat) : Img :=
  { dst with pix := fun x y =>
      if x < dst.width ∧ y < dst.height then
        if mask x y = 255 then { r := v, g := 0, b := 0, a := 255 }
        else if mask x y = 0 then dst.pix x y
        else { dst.pix x y with r := blendC (dst.pix x y).r v (mask x y) }
      else dst.pix x y }

/-- The Python exceptions that can cross the boundaries modelled here. -/
inductive PyErr
  | decodeError
  | ioError
  | indexError
  | typeError
  | valueError
  | attributeError
deriving DecidableEq, Repr

/-- A hex digit of `#rrggbb` color strings. -/
def hexDigit (c : Char) : Option Nat :=
  if '0' ≤ c ∧ c ≤ '9' then some (c.toNat - '0'.toNat)
  else if 'a' ≤ c ∧ c ≤ 'f' then some (c.toNat - 'a'.toNat + 10)
  else if 'A' ≤ c ∧ c ≤ 'F' then some (c.toNat - 'A'.toNat + 10)
  else none

/-- Model of the color-parsing collaborator `ImageColor.getrgb` for the
`#rrggbb` form the module passes to it; any other string is a parse
failure surfaced directly (Python `ValueError`). -/
def getrgb (s : String) : Except PyErr (Nat × Nat × Nat) :=
  match s.data with
  | ['#', r1, r2, g1, g2, b1, b2] =>
    match hexDigit r1, hexDigit r2, hexDigit g1, hexDigit g2, hexDigit b1, hexDigit b2 with
    | some a, some b, some c, some d, some e, some f =>
      .ok (a * 16 + b, c * 16 + d, e * 16 + f)
    | _, _, _, _, _, _ => .error .valueError
  | _ => .error .valueError

/-- Configuration collaborator (`base_config().image`) plus the two PIL
capability flags the encoder probes with `hasattr`. -/
structure Config where
  paletted : Bool
  jpeg_quality : Nat
  hasRLE : Bool
  hasFastOctree : Bool

/-- `filter_format`: alias `geotiff` (case-insensitively) to `tiff` and
any name starting with `png` (case-insensitively) to `png`; every other
name passes through with its casing untouched. -/
def filter_format (format : String) : String :=
  let format := if strLower format = "geotiff" then "tiff" else format
  if strStartsWith (strLower format) "png" then "png" else format

/-- What `img.save(buf, format, **defaults)` wrote into the buffer: the
(possibly quantized) bitmap plus the encoding options.  Decoding such a
buffer recovers the bitmap. -/
inductive BufContent
  | encoded (img : Img) (format : String) (transparency : Option Nat)
      (quality : Option Nat) (rle : Bool)
  | undecodable

/-- A byte-stream handle: an opened file, a `cStringIO` buffer or a
caller-supplied stream.  `seekable` models `hasattr(buf, 'seek')`,
`isRBW` models `isinstance(buf, ReadBufWrapper)`, `rbwDepth` counts
re-wrappings. -/
structure Buf where
  content : BufContent
  seekable : Bool := true
  closed : Bool := false
  pos : Nat := 0
  isRBW : Bool := false
  rbwDepth : Nat := 0

/-- `img_to_buf(img, format, paletted)`. -/
def img_to_buf (img : Img) (format : String) (paletted : Option Bool)
    (cfg : Config) : Buf :=
  let paletted := paletted.getD cfg.paletted
  let step :=
    if paletted ∧ (format = "png" ∨ format = "gif") then
      if img.mode = .RGBA then
        let alpha := fun x y => (img.pix x y).a
        let img := quantize img 255
        let mask := fun x y => if alpha x y ≤ 128 then 255 else 0
        (img.pasteIndex 255 mask, some 255, cfg.hasRLE)
      else
        (quantize img, none, cfg.hasRLE)
    else (img, none, false)
  let format := filter_format format
  let quality := if format = "jpeg" then some cfg.jpeg_quality else none
  { content := .encoded step.1 format step.2.1 quality step.2.2,
    seekable := true, pos := 0 }

/-- The encoding options recorded in a buffer (none for raw streams). -/
def Buf.quality (b : Buf) : Option Nat :=
  match b.content with
  | .encoded _ _ _ q _ => q
  | .undecodable => none

def Buf.transparencyOpt (b : Buf) : Option Nat :=
  match b.content with
  | .encoded _ _ t _ _ => t
  | .undecodable => none

def Buf.savedFormat (b : Buf) : Option String :=
  match b.content with
  | .encoded _ f _ _ _ => some f
  | .undecodable => none

def Buf.savedImg (b : Buf) : Option Img :=
  match b.content with
  | .encoded i _ _ _ _ => some i
  | .undecodable => none

/-- Model of the codec decode capability `Image.open(buf)`: recover the
bitmap a valid buffer encodes; fail with the decode error on anything
else (reading a closed stream is a `ValueError`). -/
def Image.openBuf (b : Buf) : Except PyErr Img :=
  if b.closed then .error .valueError
  else
    match b.content with
    | .encoded i _ _ _ _ => .ok i
    | .undecodable => .error .decodeError

/-- The filesystem collaborator: `open(fname, 'rb')` yields the file's
bytes, or fails (`IOError`) when the path cannot be opened. -/
def FS := String → Option BufContent

/-- The state of one `ImageSource` object: the three representation
slots `_img` / `_buf` / `_fname`, the declared `format`, the
`transparent` flag and the explicit `_size`. -/
structure ImageSource where
  img : Option Img
  buf : Option Buf
  fname : Option String
  format : Option String
  transparent : Bool
  sizeF : Option (Nat × Nat)

/-- A value assignable to `ImageSource.source` (the dynamic
`isinstance` dispatch of `_set_source` becomes a sum type). -/
inductive Source
  | str (f : String)
  | image (i : Img)
  | stream (b : Buf)

/-- `ImageSource._set_source`: clear `_img` and `_buf`, then fill the
slot matching the value's type.  Note that `_fname` is never cleared. -/
def ImageSource.set_source (s : ImageSource) (src : Source) : ImageSource :=
  let s := { s with img := none, buf := none }
  match src with
  | .str f => { s with fname := some f }
  | .image i => { s with img := some i }
  | .stream b => { s with buf := some b }

/-- `ImageSource.__init__(source, format, size, transparent)`. -/
def ImageSource.make (src : Source) (format : Option String := some "png")
    (size : Option (Nat × Nat) := none) (transparent : Bool := false) :
    ImageSource :=
  (ImageSource.set_source
    { img := none, buf := none, fname := none,
      format := format, transparent := transparent, sizeF := size } src)

/-- `ImageSource._get_source`: `self._img or self._buf or self._fname`. -/
def ImageSource.get_source (s : ImageSource) : Option Source :=
  match s.img with
  | some i => some (.image i)
  | none =>
    match s.buf with
    | some b => some (.stream b)
    | none =>
      match s.fname with
      | some f => some (.str f)
      | none => none

/-- `ImageSource.filename` property. -/
def ImageSource.filename (s : ImageSource) : Option String := s.fname

/-- `ImageSource.size` property: the bitmap's pixel dimensions when the
source is a decoded image, else the stored explicit size. -/
def ImageSource.size (s : ImageSource) : Option (Nat × Nat) :=
  match s.img with
  | some i => some i.sizeOf
  | none => s.sizeF

/-- `ImageSource._make_seekable_buf`: open the file when only a path is
held, re-buffer a non-seekable stream into a `StringIO`, then `seek(0)`.
Returns the outcome together with the mutated state. -/
def ImageSource.make_seekable_buf (fs : FS) (s : ImageSource) :
    Except PyErr Unit × ImageSource :=
  match s.buf, s.fname with
  | none, some f =>
    match fs f with
    | none => (.error .ioError, s)
    | some c =>
      (.ok (), { s with buf := some { content := c, seekable := true, pos := 0 } })
  | none, none =>
    -- `self._buf` is None: `None.read()` raises AttributeError
    (.error .attributeError, s)
  | some b, _ =>
    if b.seekable then (.ok (), { s with buf := some { b with pos := 0 } })
    else
      -- StringIO(self._buf.read()), then seek(0)
      (.ok (), { s with buf := some { content := b.content, seekable := true, pos := 0 } })

/-- `ImageSource._make_readable_buf`: open the file when only a path is
held; re-wrap a non-seekable `ReadBufWrapper`; `seek(0)` on seekable
buffers; otherwise leave the state alone. -/
def ImageSource.make_readable_buf (fs : FS) (s : ImageSource) :
    Except PyErr Unit × ImageSource :=
  match s.buf, s.fname with
  | none, some f =>
    match fs f with
    | none => (.error .ioError, s)
    | some c =>
      (.ok (), { s with buf := some { content := c, seekable := true, pos := 0 } })
  | none, none => (.ok (), s)
  | some b, _ =>
    if b.seekable then (.ok (), { s with buf := some { b with pos := 0 } })
    else if b.isRBW then
      (.ok (), { s with buf := some { b with rbwDepth := b.rbwDepth + 1 } })
    else (.ok (), s)

/-- `ImageSource.as_image`: return the cached bitmap, or obtain a
seekable buffer and decode it, caching the result; on decode failure
close the buffer and re-raise.  The `Bool` reports whether a decode
(`Image.open`) actually ran. -/
def ImageSource.as_image (fs : FS) (s : ImageSource) :
    Except PyErr Img × ImageSource × Bool :=
  match s.img with
  | some i => (.ok i, s, false)
  | none =>
    match ImageSource.make_seekable_buf fs s with
    | (.error e, s1) => (.error e, s1, false)
    | (.ok _, s1) =>
      match s1.buf with
      | none => (.error .attributeError, s1, false)
      | some b =>
        match Image.openBuf b with
        | .ok i => (.ok i, { s1 with img := some i }, true)
        | .error e =>
          -- `self._buf.close()` before the exception propagates
          (.error e, { s1 with buf := some { b with closed := true } }, false)

/-- `ImageSource.as_buffer(format, paletted, seekable)`.  Returns the
result (`self._buf`, which Python may leave as None), the mutated state
and the number of decode and encode operations performed.  The
recursive call in the format-mismatch branch runs with `_buf` and
`_fname` both cleared, so it provably takes the encode branch; it is
inlined here as that branch. -/
def ImageSource.as_buffer (fs : FS) (cfg : Config) (s : ImageSource)
    (format : Option String := none) (paletted : Option Bool := none)
    (seekable : Bool := false) :
    Except PyErr (Option Buf) × ImageSource × Nat × Nat :=
  if s.buf.isNone ∧ s.fname.isNone then
    let fmt := match format with
               | some f => some f
               | none => s.format
    match s.img, fmt with
    | some i, some f =>
      let b := img_to_buf i f paletted cfg
      (.ok (some b), { s with buf := some b }, 0, 1)
    | _, _ =>
      -- `img_to_buf(None, ...)` or `filter_format(None)`: AttributeError
      (.error .attributeError, s, 0, 0)
  else
    match (if seekable then ImageSource.make_seekable_buf fs s
           else ImageSource.make_readable_buf fs s) with
    | (.error e, s1) => (.error e, s1, 0, 0)
    | (.ok _, s1) =>
      match s1.format, format with
      | some oldf, some newf =>
        if oldf ≠ newf then
          -- self.source = self.as_image()
          match ImageSource.as_image fs s1 with
          | (.error e, s2, d) => (.error e, s2, (if d then 1 else 0), 0)
          | (.ok i, s2, d) =>
            let s3 := ImageSource.set_source s2 (.image i)
            let s4 := { s3 with buf := none, format := some newf }
            let fnameSaved := s4.fname
            let s5 := { s4 with fname := none }
            -- recursive as_buffer: encode branch (see doc comment)
            let b := img_to_buf i newf paletted cfg
            let s6 := { s5 with buf := some b, fname := fnameSaved }
            (.ok (some b), s6, (if d then 1 else 0), 1)
        else (.ok s1.buf, s1, 0, 0)
      | _, _ => (.ok s1.buf, s1, 0, 0)

/-- The result of `LayerMerger.merge`: either the very object stored at
index `i` of the merger's layer list (reference identity), or a freshly
constructed `ImageSource`. -/
inductive MergeOut
  | same (i : Nat)
  | fresh (s : ImageSource)

/-- The general path of `LayerMerger.merge` (everything after the
single-layer shortcut).  The `Nat` counts decodes actually performed. -/
def LayerMerger.mergeGeneral (fs : FS) (layers : List ImageSource)
    (format : String) (size : Option (Nat × Nat)) (bgcolor : String)
    (transparent : Bool) : Except PyErr (MergeOut × Nat) := do
  let size ← match size with
    | some sz => pure sz
    | none =>
      match layers[0]? with
      | none => throw PyErr.indexError       -- self.layers[0] on an empty list
      | some l =>
        match ImageSource.size l with
        | some sz => pure sz
        | none => throw PyErr.typeError      -- Image.new with size None
  let bg ← getrgb bgcolor
  let canvas :=
    if transparent then
      Img.new .RGBA size { r := bg.1, g := bg.2.1, b := bg.2.2, a := 0 }
    else
      Img.new .RGB size { r := bg.1, g := bg.2.1, b := bg.2.2, a := 255 }
  let (img, decodes) ← layers.foldlM
    (fun (acc : Img × Nat) layer => do
      match ImageSource.as_image fs layer with
      | (.ok li, _, d) =>
        let pasted := if li.mode = .RGBA then acc.1.pasteMasked li else acc.1.paste li
        pure (pasted, acc.2 + (if d then 1 else 0))
      | (.error e, _, _) => throw e)
    (canvas, 0)
  pure (.fresh (ImageSource.make (.image img) (some format)), decodes)

/-- `LayerMerger.merge(format, size, bgcolor, transparent)` over the
merger's layer list. -/
def LayerMerger.merge (fs : FS) (layers : List ImageSource)
    (format : String := "png") (size : Option (Nat × Nat) := none)
    (bgcolor : String := "#ffffff") (transparent : Bool := false) :
    Except PyErr (MergeOut × Nat) :=
  match layers with
  | [l] =>
    if l.transparent = transparent then .ok (.same 0, 0)
    else LayerMerger.mergeGeneral fs [l] format size bgcolor transparent
  | _ => LayerMerger.mergeGeneral fs layers format size bgcolor transparent

/-- Projection: the fresh `ImageSource` a merge produced, if any. -/
def mergeFresh : Except PyErr (MergeOut × Nat) → Option ImageSource
  | .ok (.fresh s, _) => some s
  | _ => none

/-- Projection: how many decodes a successful merge performed. -/
def mergeDecodes : Except PyErr (MergeOut × Nat) → Option Nat
  | .ok (_, d) => some d
  | _ => none

/-- The state of one `ReadBufWrapper` instance: the attribute names the
wrapped forward-only stream itself exposes (besides `read`, which every
stream has), whether `self.stringio` has been materialized, and the
`ok_to_seek` flag. -/
structure ReadBufWrapper where
  streamAttrs : List String
  buffered : Bool
  ok_to_seek : Bool

/-- `ReadBufWrapper.__init__(readbuf)`. -/
def ReadBufWrapper.init (attrs : List String) : ReadBufWrapper :=
  { streamAttrs := attrs, buffered := false, ok_to_seek := false }

/-- An operation on a `ReadBufWrapper`: a `read` call, iteration, or any
other attribute access (which Python routes through `__getattr__`). -/
inductive RBWOp
  | read
  | iter
  | attr (name : String)
deriving DecidableEq, Repr

/-- Observable events of one operation: bytes served from the original
stream, the one-time drain of the stream into the `StringIO` buffer,
service from the buffer, an attribute forwarded to the stream object
without buffering, or an `AttributeError`. -/
inductive RBWEv
  | readStream
  | drainStream
  | serveBuffer
  | forwardStream
  | attrError
deriving DecidableEq, Repr

/-- One operation on a `ReadBufWrapper`: `read` and `__iter__` delegate
to the `StringIO` when it exists and to the raw stream otherwise;
`__getattr__` forwards attributes the stream has, raises on
`__length_hint__`, and otherwise drains the stream into a `StringIO`
and serves from it (and from then on serves everything from it). -/
def ReadBufWrapper.step (w : ReadBufWrapper) : RBWOp → ReadBufWrapper × List RBWEv
  | .read => if w.buffered then (w, [.serveBuffer]) else (w, [.readStream])
  | .iter => if w.buffered then (w, [.serveBuffer]) else (w, [.readStream])
  | .attr n =>
    if w.buffered then (w, [.serveBuffer])
    else if n ∈ w.streamAttrs then (w, [.forwardStream])
    else if n = "__length_hint__" then (w, [.attrError])
    else ({ w with buffered := true, ok_to_seek := true },
          [.drainStream, .serveBuffer])

/-- Run a sequence of operations, collecting the events. -/
def ReadBufWrapper.run (w : ReadBufWrapper) : List RBWOp → List RBWEv
  | [] => []
  | op :: ops =>
    let (w1, evs) := w.step op
    evs ++ ReadBufWrapper.run w1 ops

/-- After the first `drainStream`, every later event must be
`serveBuffer`: the original stream is never read, drained or forwarded
to again (in particular at most one drain ever happens). -/
def cleanAfterDrain : List RBWEv → Bool
  | [] => true
  | .drainStream :: rest => rest.all (· = .serveBuffer)
  | _ :: rest => cleanAfterDrain rest

/-- `is_single_color_image(image)`: `getcolors(1)`, then either report
non-uniformity (`none`, Python `False`) or resolve the single color,
going through the palette for mode-`P` bitmaps.  The flat-palette
subscripts `palette[c*3 + k]` are total here via `getD`; they agree with
Python whenever the index is in range. -/
def is_single_color_image (image : Img) : Except PyErr (Option ColorVal) :=
  match image.getcolors 1 with
  | none => .ok none
  | some result =>
    match result with
    | [] => .error .indexError               -- result[0] on an empty list
    | (_, color) :: _ =>
      if image.mode = .P then
        let i := match color with
                 | .pIdx i => i
                 | _ => 0                     -- mode P always yields .pIdx
        let pal := image.getpalette
        .ok (some (.rgb (pal.getD (i * 3) 0, pal.getD (i * 3 + 1) 0,
                          pal.getD (i * 3 + 2) 0)))
      else .ok (some color)

/-- How many of the three representation slots are populated. -/
def ImageSource.repCount (s : ImageSource) : Nat :=
  (if s.img.isSome then 1 else 0) + (if s.buf.isSome then 1 else 0) +
    (if s.fname.isSome then 1 else 0)

/-- Whether an optional buffer is a closed stream. -/
def bufClosedB : Option Buf → Bool
  | some b => b.closed
  | none => false

/-- Whether an `as_buffer` outcome is a success. -/
def isOkBuf : Except PyErr (Option Buf) → Bool
  | .ok _ => true
  | .error _ => false

/- Concrete fixtures used by the witnesses and counterexamples. -/

/-- A 1×1 opaque RGB bitmap. -/
def cImg : Img :=
  { mode := .RGB, width := 1, height := 1, pix := fun _ _ => ⟨10, 20, 30, 255⟩ }

/-- A second 1×1 opaque RGB bitmap, with a different color. -/
def cImgB : Img :=
  { mode := .RGB, width := 1, height := 1, pix := fun _ _ => ⟨200, 100, 50, 255⟩ }

/-- A filesystem with one jpeg-encoded file and one unreadable blob. -/
def cFS : FS := fun f =>
  if f = "a.jpg" then some (.encoded cImg "jpeg" none none false)
  else if f = "bad.bin" then some .undecodable
  else none

/-- A configuration fixture. -/
def cCfg : Config :=
  { paletted := false, jpeg_quality := 85, hasRLE := false, hasFastOctree := true }

/-- A file-backed `ImageSource` declared as jpeg. -/
def cSrcFile : ImageSource := ImageSource.make (.str "a.jpg") (some "jpeg")

/-- An `ImageSource` wrapping an image directly. -/
def cSrcImg : ImageSource := ImageSource.make (.image cImg) (some "png")

/-- A buffer holding undecodable bytes. -/
def cBadBuf : Buf := { content := .undecodable, seekable := true }

/- ------------------------------------------------------------------ -/
/- C1                                                                  -/
/- ------------------------------------------------------------------ -/

/-- C1: if the merger holds exactly one layer `s` and `s.transparent`
equals the requested transparent flag, `merge` returns the very object
`s` (index 0 of the layer list — reference identity), for every
requested format, size and background color, and performs zero decode
and encode operations. -/
theorem merge_single_layer_identity (fs : FS) (s : ImageSource)
    (fmt : String) (osize : Option (Nat × Nat)) (bg : String) (t : Bool)
    (h : s.transparent = t) :
    LayerMerger.merge fs [s] fmt osize bg t = .ok (.same 0, 0) := by
  simp [LayerMerger.merge, h]

/-- C1 witness: the identity fast path at a concrete input. -/
theorem merge_single_layer_identity_witness :
    cSrcImg.transparent = false ∧
      LayerMerger.merge cFS [cSrcImg] "png" none "#ffffff" false =
        .ok (.same 0, 0) :=
  ⟨rfl, merge_single_layer_identity cFS cSrcImg "png" none "#ffffff" false rfl⟩

/- ------------------------------------------------------------------ -/
/- C10                                                                 -/
/- ------------------------------------------------------------------ -/

/-- C10: merging an empty layer list with no explicit size fails with
the out-of-range access `self.layers[0]` (an `IndexError`); with an
explicit size it succeeds and returns a background-only canvas, so the
general path is total only under that precondition. -/
theorem merge_empty_layers (fs : FS) (fmt bg : String) (t : Bool) :
    LayerMerger.merge fs [] fmt none bg t = .error .indexError ∧
    (∀ (sz : Nat × Nat) (rgbv : Nat × Nat × Nat), getrgb bg = .ok rgbv →
      LayerMerger.merge fs [] fmt (some sz) bg t =
        .ok (.fresh (ImageSource.make (.image
          (if t then Img.new .RGBA sz ⟨rgbv.1, rgbv.2.1, rgbv.2.2, 0⟩
           else Img.new .RGB sz ⟨rgbv.1, rgbv.2.1, rgbv.2.2, 255⟩)) (some fmt)), 0)) := by
  constructor
  · rfl
  · intro sz rgbv hbg
    simp [LayerMerger.merge, LayerMerger.mergeGeneral, hbg]

/-- C10 witness: both halves at concrete inputs. -/
theorem merge_empty_layers_witness :
    LayerMerger.merge cFS [] "png" none "#ffffff" false = .error .indexError ∧
      LayerMerger.merge cFS [] "png" (some (2, 3)) "#ffffff" false =
        .ok (.fresh (ImageSource.make (.image
          (Img.new .RGB (2, 3) ⟨255, 255, 255, 255⟩)) (some "png")), 0) := by
  refine ⟨(merge_empty_layers cFS "png" "#ffffff" false).1, ?_⟩
  have h := (merge_empty_layers cFS "png" "#ffffff" false).2 (2, 3)
    (255, 255, 255) rfl
  simpa using h

/- ------------------------------------------------------------------ -/
/- C3                                                                  -/
/- ------------------------------------------------------------------ -/

/-- C3: when no bitmap is cached and the buffer (or the file's bytes)
cannot be decoded, `as_image` (a) leaves the stream it was reading
closed, (b) propagates the decode failure, and (c) caches no bitmap, so
the instance can be retried after its source is replaced. -/
theorem as_image_decode_failure (fs : FS) (s : ImageSource)
    (himg : s.img = none) :
    (∀ b, s.buf = some b → b.content = .undecodable → b.closed = false →
      (ImageSource.as_image fs s).1 = .error .decodeError ∧
      (ImageSource.as_image fs s).2.1.img = none ∧
      bufClosedB (ImageSource.as_image fs s).2.1.buf = true) ∧
    (s.buf = none → ∀ f, s.fname = some f → fs f = some .undecodable →
      (ImageSource.as_image fs s).1 = .error .decodeError ∧
      (ImageSource.as_image fs s).2.1.img = none ∧
      bufClosedB (ImageSource.as_image fs s).2.1.buf = true) := by
  constructor
  · intro b hbuf hcontent hopen
    rcases hsk : b.seekable with _ | _ <;>
      simp [ImageSource.as_image, ImageSource.make_seekable_buf, Image.openBuf,
        himg, hbuf, hcontent, hopen, hsk, bufClosedB]
  · intro hbuf f hf hfs
    simp [ImageSource.as_image, ImageSource.make_seekable_buf, Image.openBuf,
      himg, hbuf, hf, hfs, bufClosedB]

/-- C3 witness: decode failure of a concrete undecodable buffer. -/
theorem as_image_decode_failure_witness :
    ((ImageSource.make (.stream cBadBuf) (some "png")).img = none ∧
      (ImageSource.make (.stream cBadBuf) (some "png")).buf = some cBadBuf ∧
      cBadBuf.content = .undecodable ∧ cBadBuf.closed = false) ∧
    ((ImageSource.as_image cFS (ImageSource.make (.stream cBadBuf) (some "png"))).1 =
        .error .decodeError ∧
      (ImageSource.as_image cFS (ImageSource.make (.stream cBadBuf) (some "png"))).2.1.img = none ∧
      bufClosedB (ImageSource.as_image cFS
        (ImageSource.make (.stream cBadBuf) (some "png"))).2.1.buf = true) :=
  ⟨⟨rfl, rfl, rfl, rfl⟩,
    (as_image_decode_failure cFS (ImageSource.make (.stream cBadBuf) (some "png"))
      rfl).1 cBadBuf rfl rfl rfl⟩

/- ------------------------------------------------------------------ -/
/- C7                                                                  -/
/- ------------------------------------------------------------------ -/

/-- C7 counterexample: for the input casing "JPEG" the normalization
leaves the name unchanged and the case-sensitive `format == 'jpeg'`
check fails, so the configured quality is NOT applied — refuting the
claim that any casing of jpeg receives the quality option. -/
theorem format_case_counterexample :
    strLower "JPEG" = "jpeg" ∧
      filter_format "JPEG" = "JPEG" ∧
      (img_to_buf cImg "JPEG" (some false) cCfg).quality = none ∧
      ¬ (img_to_buf cImg "JPEG" (some false) cCfg).quality =
          some cCfg.jpeg_quality := by
  exact ⟨by decide, by decide, by decide, by decide⟩

/-- C7 (amended): `geotiff` is aliased to `tiff` and `png*` to `png`
case-insensitively, but every other name keeps its casing, and the
jpeg quality option is applied exactly when the name after
normalization is the literal lowercase string `"jpeg"`. -/
theorem filter_format_normalization (fmt : String) (i : Img)
    (pal : Option Bool) (cfg : Config) :
    (strLower fmt = "geotiff" → filter_format fmt = "tiff") ∧
    (strStartsWith (strLower fmt) "png" = true → filter_format fmt = "png") ∧
    ((img_to_buf i fmt pal cfg).quality =
      if filter_format fmt = "jpeg" then some cfg.jpeg_quality else none) ∧
    (img_to_buf i fmt pal cfg).savedFormat = some (filter_format fmt) := by
  refine ⟨?_, ?_, ?_, ?_⟩
  · intro h
    simp only [filter_format, h, if_true, reduceIte]
    decide
  · intro h
    by_cases hg : strLower fmt = "geotiff"
    · rw [hg] at h
      exact absurd h (by decide)
    · simp only [filter_format, hg, if_false, h, if_true]
  · rfl
  · rfl

/-- C7 witness: the amended normalization at concrete inputs. -/
theorem filter_format_normalization_witness :
    (strLower "GeoTiff" = "geotiff" ∧ filter_format "GeoTiff" = "tiff") ∧
      (strStartsWith (strLower "PNG8") "png" = true ∧
        filter_format "PNG8" = "png") := by
  refine ⟨⟨by decide, ?_⟩, ⟨by decide, ?_⟩⟩
  · exact (filter_format_normalization "GeoTiff" cImg none cCfg).1 (by decide)
  · exact (filter_format_normalization "PNG8" cImg none cCfg).2.1 (by decide)

/- ------------------------------------------------------------------ -/
/- C8                                                                  -/
/- ------------------------------------------------------------------ -/

/-- Once the `StringIO` buffer exists, every operation is served from
it and leaves the state buffered. -/
theorem rbw_step_buffered (w : ReadBufWrapper) (op : RBWOp)
    (h : w.buffered = true) :
    w.step op = (w, [.serveBuffer]) := by
  cases op <;> simp [ReadBufWrapper.step, h]

/-- Once buffered, a whole run only ever serves from the buffer. -/
theorem rbw_run_buffered (ops : List RBWOp) (w : ReadBufWrapper)
    (h : w.buffered = true) :
    (ReadBufWrapper.run w ops).all (· = .serveBuffer) = true := by
  induction ops generalizing w with
  | nil => rfl
  | cons op ops ih =>
    simp only [ReadBufWrapper.run, rbw_step_buffered w op h, List.cons_append,
      List.nil_append, List.all_cons, Bool.and_eq_true]
    exact ⟨by decide, ih _ h⟩

/-- A list of only `serveBuffer` events is clean after any drain. -/
theorem cleanAfterDrain_of_all_serve (l : List RBWEv)
    (h : l.all (· = .serveBuffer) = true) : cleanAfterDrain l = true := by
  induction l with
  | nil => rfl
  | cons e l ih =>
    simp only [List.all_cons, Bool.and_eq_true, decide_eq_true_eq] at h
    obtain ⟨h1, h2⟩ := h
    subst h1
    simpa [cleanAfterDrain] using ih h2

/-- From an unbuffered state, a whole run drains at most once and
never touches the original stream after the drain. -/
theorem rbw_run_clean (ops : List RBWOp) (w : ReadBufWrapper)
    (h : w.buffered = false) :
    cleanAfterDrain (ReadBufWrapper.run w ops) = true := by
  induction ops generalizing w with
  | nil => rfl
  | cons op ops ih =>
    cases op with
    | read => simpa [ReadBufWrapper.run, ReadBufWrapper.step, h, cleanAfterDrain]
        using ih _ h
    | iter => simpa [ReadBufWrapper.run, ReadBufWrapper.step, h, cleanAfterDrain]
        using ih _ h
    | attr n =>
      by_cases hmem : n ∈ w.streamAttrs
      · simpa [ReadBufWrapper.run, ReadBufWrapper.step, h, hmem, cleanAfterDrain]
          using ih _ h
      · by_cases hlh : n = "__length_hint__"
        · subst hlh
          simpa [ReadBufWrapper.run, ReadBufWrapper.step, h, hmem,
            cleanAfterDrain] using ih _ h
        · have hall := rbw_run_buffered ops
            { w with buffered := true, ok_to_seek := true } rfl
          simp only [ReadBufWrapper.run, ReadBufWrapper.step, h, hmem, hlh,
            Bool.false_eq_true, if_false, List.cons_append, List.nil_append,
            cleanAfterDrain, List.all_cons, Bool.and_eq_true]
          exact ⟨by decide, hall⟩

/-- C8 counterexample: a forward-only stream that also exposes `close`.
Accessing `close` on the fresh wrapper is an operation other than
`read`, yet it is forwarded to the stream and the wrapper does NOT
drain the stream into a buffer — refuting the claim that every
non-`read` operation is preceded by the buffering conversion. -/
theorem rbw_forward_counterexample :
    ((ReadBufWrapper.init ["close"]).step (.attr "close")).2 = [.forwardStream] ∧
      ((ReadBufWrapper.init ["close"]).step (.attr "close")).1.buffered = false ∧
      (RBWOp.attr "close") ≠ .read := by
  exact ⟨by decide, by decide, by decide⟩

/-- C8 (amended): an attribute access that neither the wrapper nor the
wrapped stream can serve (and that is not `__length_hint__`) triggers
the drain into the in-memory buffer; operations the stream itself
supports are forwarded without buffering.  Over any operation sequence
at most one drain happens, and after it the original stream is never
read from, drained or forwarded to again. -/
theorem rbw_buffering_discipline (attrs : List String) (ops : List RBWOp)
    (w : ReadBufWrapper) (n : String) :
    cleanAfterDrain (ReadBufWrapper.run (ReadBufWrapper.init attrs) ops) = true ∧
    (w.buffered = false → n ∉ w.streamAttrs → n ≠ "__length_hint__" →
      (w.step (.attr n)).1.buffered = true ∧
        (w.step (.attr n)).2 = [.drainStream, .serveBuffer]) := by
  refine ⟨rbw_run_clean ops _ rfl, ?_⟩
  intro hb hmem hlh
  simp [ReadBufWrapper.step, hb, hmem, hlh]

/-- C8 witness: the drain triggered by a `seek` the stream lacks, and a
clean concrete run. -/
theorem rbw_buffering_discipline_witness :
    ((ReadBufWrapper.init ["close"]).buffered = false ∧
      "seek" ∉ (ReadBufWrapper.init ["close"]).streamAttrs ∧
      "seek" ≠ "__length_hint__") ∧
    ((ReadBufWrapper.init ["close"]).step (.attr "seek")).1.buffered = true ∧
      ((ReadBufWrapper.init ["close"]).step (.attr "seek")).2 =
        [.drainStream, .serveBuffer] :=
  ⟨⟨by decide, by decide, by decide⟩,
    (rbw_buffering_discipline ["close"] [] (ReadBufWrapper.init ["close"])
      "seek").2 (by decide) (by decide) (by decide)⟩

/- ------------------------------------------------------------------ -/
/- C2                                                                  -/
/- ------------------------------------------------------------------ -/

/-- The state of the file-backed jpeg source after a format-mismatched
`as_buffer(format='png')`. -/
def c2state : ImageSource :=
  (ImageSource.as_buffer cFS cCfg cSrcFile (some "png") none false).2.1

/-- C2 counterexample: after a format-mismatched `as_buffer` on a
file-backed source, ALL THREE representation slots are populated (the
decoded bitmap is cached, the re-encoded buffer is stored, and line
`self._fname = fname` restores the old file name), so neither "exactly
one variant" nor "the filename is no longer that of the old file"
holds. -/
theorem representation_union_counterexample :
    c2state.repCount = 3 ∧ c2state.filename = some "a.jpg" := by
  exact ⟨by decide, by decide⟩

/-- `_make_seekable_buf` on a source that already holds a buffer:
succeeds, still holds a buffer, and touches no other slot. -/
theorem make_seekable_buf_keeps_buf (fs : FS) (s : ImageSource) (b : Buf)
    (hbuf : s.buf = some b) :
    (ImageSource.make_seekable_buf fs s).1 = .ok () ∧
    ((ImageSource.make_seekable_buf fs s).2.buf).isSome = true ∧
    (ImageSource.make_seekable_buf fs s).2.img = s.img := by
  cases hsk : b.seekable <;>
    simp [ImageSource.make_seekable_buf, hbuf, hsk]

/-- C2 (amended): construction populates exactly one representation
slot, but the slots are not kept exclusive afterwards: `as_image`
caches the decoded bitmap while keeping the buffer, and a
format-mismatched `as_buffer` on a file-backed source ends with the
bitmap and the new buffer both populated and the filename restored to
the old file's path. -/
theorem representation_slot_evolution (fs : FS) :
    (∀ (src : Source) (fmt : Option String) (sz : Option (Nat × Nat)) (t : Bool),
      (ImageSource.make src fmt sz t).repCount = 1) ∧
    (∀ (s : ImageSource) (i : Img), (ImageSource.as_image fs s).1 = .ok i →
      (ImageSource.as_image fs s).2.1.img = some i) ∧
    (∀ s : ImageSource, s.buf.isSome = true →
      ((ImageSource.as_image fs s).2.1.buf).isSome = true) ∧
    (∀ (cfg : Config) (s : ImageSource) (f F G : String) (pal : Option Bool)
      (i : Img) (encFmt : String) (tr q : Option Nat) (rle : Bool),
      s.img = none → s.buf = none → s.fname = some f → s.format = some G →
      G ≠ F → fs f = some (.encoded i encFmt tr q rle) →
      (ImageSource.as_buffer fs cfg s (some F) pal false).2.1.img = some i ∧
      ((ImageSource.as_buffer fs cfg s (some F) pal false).2.1.buf).isSome = true ∧
      (ImageSource.as_buffer fs cfg s (some F) pal false).2.1.fname = some f ∧
      (ImageSource.as_buffer fs cfg s (some F) pal false).2.1.format = some F) := by
  refine ⟨?_, ?_, ?_, ?_⟩
  · intro src fmt sz t
    cases src <;> simp [ImageSource.make, ImageSource.set_source, ImageSource.repCount]
  · intro s i h
    match hs : s.img with
    | some j =>
      simp only [ImageSource.as_image, hs] at h ⊢
      injection h with h1
      exact congrArg some h1
    | none =>
      simp only [ImageSource.as_image, hs] at h ⊢
      match hmk : ImageSource.make_seekable_buf fs s with
      | (.error e, s1) => simp [hmk] at h
      | (.ok u, s1) =>
        simp only [hmk] at h ⊢
        match hb : s1.buf with
        | none => simp [hb] at h
        | some b =>
          simp only [hb] at h ⊢
          match ho : Image.openBuf b with
          | .ok j => simp_all
          | .error e => simp [ho] at h
  · intro s hb
    match hs : s.img with
    | some j => simpa [ImageSource.as_image, hs] using hb
    | none =>
      obtain ⟨b, hbuf⟩ := Option.isSome_iff_exists.1 hb
      obtain ⟨hok, hbs, _⟩ := make_seekable_buf_keeps_buf fs s b hbuf
      simp only [ImageSource.as_image, hs]
      match hmk : ImageSource.make_seekable_buf fs s with
      | (.error e, s1) =>
        rw [hmk] at hok
        exact absurd hok (by simp)
      | (.ok u, s1) =>
        rw [hmk] at hbs
        simp only at hbs
        obtain ⟨b1, hb1⟩ := Option.isSome_iff_exists.1 hbs
        simp only [hb1]
        match ho : Image.openBuf b1 with
        | .ok j => simp [hb1]
        | .error e => simp
  · intro cfg s f F G pal i encFmt tr q rle himg hbuf hf hfmt hne hfs
    simp [ImageSource.as_buffer, ImageSource.make_readable_buf,
      ImageSource.as_image, ImageSource.make_seekable_buf, Image.openBuf,
      ImageSource.set_source, himg, hbuf, hf, hfmt, hne, hfs]

/-- C2 witness: the amended statement at the concrete file-backed
source. -/
theorem representation_slot_evolution_witness :
    (cSrcFile.img = none ∧ cSrcFile.buf = none ∧
      cSrcFile.fname = some "a.jpg" ∧ cSrcFile.format = some "jpeg" ∧
      "jpeg" ≠ "png" ∧
      cFS "a.jpg" = some (.encoded cImg "jpeg" none none false)) ∧
    ((ImageSource.as_buffer cFS cCfg cSrcFile (some "png") none false).2.1.img =
        some cImg ∧
      ((ImageSource.as_buffer cFS cCfg cSrcFile (some "png") none
          false).2.1.buf).isSome = true ∧
      (ImageSource.as_buffer cFS cCfg cSrcFile (some "png") none
          false).2.1.fname = some "a.jpg" ∧
      (ImageSource.as_buffer cFS cCfg cSrcFile (some "png") none
          false).2.1.format = some "png") :=
  ⟨⟨rfl, rfl, rfl, rfl, by decide, rfl⟩,
    (representation_slot_evolution cFS).2.2.2 cCfg cSrcFile "a.jpg" "png" "jpeg"
      none cImg "jpeg" none none false rfl rfl rfl rfl (by decide) rfl⟩

/- ------------------------------------------------------------------ -/
/- C4                                                                  -/
/- ------------------------------------------------------------------ -/

/-- Encoded buffers produced by `img_to_buf` are seekable `StringIO`s. -/
theorem img_to_buf_seekable (i : Img) (f : String) (pal : Option Bool)
    (cfg : Config) : (img_to_buf i f pal cfg).seekable = true := rfl

/-- `as_buffer` when the declared format already matches the requested
one and a seekable buffer is held: rewind it and return it; no decode,
no encode, no state change beyond the rewind. -/
theorem as_buffer_matching_format (fs : FS) (cfg : Config) (s : ImageSource)
    (F : String) (pal : Option Bool) (b : Buf) (hb : s.buf = some b)
    (hsk : b.seekable = true) (hf : s.format = some F) :
    ImageSource.as_buffer fs cfg s (some F) pal false =
      (.ok (some { b with pos := 0 }), { s with buf := some { b with pos := 0 } },
        0, 0) := by
  simp [ImageSource.as_buffer, ImageSource.make_readable_buf, hb, hsk, hf]

/-- First call of the format-mismatch path on a buffer-backed source:
decode once, re-encode once, store the new buffer and the new declared
format. -/
theorem as_buffer_mismatch_buffer (fs : FS) (cfg : Config) (s : ImageSource)
    (F G : String) (pal : Option Bool) (b : Buf) (i : Img) (encFmt : String)
    (tr q : Option Nat) (rle : Bool) (himg : s.img = none)
    (hb : s.buf = some b) (hc : b.content = .encoded i encFmt tr q rle)
    (hcl : b.closed = false) (hfmt : s.format = some G) (hne : G ≠ F) :
    ImageSource.as_buffer fs cfg s (some F) pal false =
      (.ok (some (img_to_buf i F pal cfg)),
        { s with img := some i, buf := some (img_to_buf i F pal cfg),
                 format := some F }, 1, 1) := by
  cases hsk : b.seekable with
  | true =>
    simp [ImageSource.as_buffer, ImageSource.make_readable_buf,
      ImageSource.as_image, ImageSource.make_seekable_buf, Image.openBuf,
      ImageSource.set_source, himg, hb, hc, hcl, hfmt, hne, hsk]
  | false =>
    cases hrw : b.isRBW with
    | true =>
      simp [ImageSource.as_buffer, ImageSource.make_readable_buf,
        ImageSource.as_image, ImageSource.make_seekable_buf, Image.openBuf,
        ImageSource.set_source, himg, hb, hc, hcl, hfmt, hne, hsk, hrw]
    | false =>
      simp [ImageSource.as_buffer, ImageSource.make_readable_buf,
        ImageSource.as_image, ImageSource.make_seekable_buf, Image.openBuf,
        ImageSource.set_source, himg, hb, hc, hcl, hfmt, hne, hsk, hrw]

/-- First call of the format-mismatch path on a file-backed source. -/
theorem as_buffer_mismatch_file (fs : FS) (cfg : Config) (s : ImageSource)
    (F G f : String) (pal : Option Bool) (i : Img) (encFmt : String)
    (tr q : Option Nat) (rle : Bool) (himg : s.img = none)
    (hb : s.buf = none) (hf : s.fname = some f)
    (hfs : fs f = some (.encoded i encFmt tr q rle))
    (hfmt : s.format = some G) (hne : G ≠ F) :
    ImageSource.as_buffer fs cfg s (some F) pal false =
      (.ok (some (img_to_buf i F pal cfg)),
        { s with img := some i, buf := some (img_to_buf i F pal cfg),
                 format := some F }, 1, 1) := by
  simp [ImageSource.as_buffer, ImageSource.make_readable_buf,
    ImageSource.as_image, ImageSource.make_seekable_buf, Image.openBuf,
    ImageSource.set_source, himg, hb, hf, hfs, hfmt, hne]

/-- C4: a format-mismatched `as_buffer(format=F)` (on a buffer-backed or
file-backed source with declared format `G ≠ F`) succeeds with exactly
one decode and one encode, leaves the declared format durably at `F`,
and a second `as_buffer(format=F)` returns the held buffer with zero
decodes and zero encodes — the conversion is durable and idempotent. -/
theorem as_buffer_conversion_idempotent (fs : FS) (cfg : Config)
    (s : ImageSource) (F G : String) (pal : Option Bool) (i : Img)
    (encFmt : String) (tr q : Option Nat) (rle : Bool)
    (himg : s.img = none) (hfmt : s.format = some G) (hne : G ≠ F)
    (hrep : (∃ b, s.buf = some b ∧ b.content = .encoded i encFmt tr q rle ∧
               b.closed = false) ∨
            (s.buf = none ∧ ∃ f, s.fname = some f ∧
               fs f = some (.encoded i encFmt tr q rle))) :
    isOkBuf (ImageSource.as_buffer fs cfg s (some F) pal false).1 = true ∧
    (ImageSource.as_buffer fs cfg s (some F) pal false).2.2 = (1, 1) ∧
    (ImageSource.as_buffer fs cfg s (some F) pal false).2.1.format = some F ∧
    (ImageSource.as_buffer fs cfg
        (ImageSource.as_buffer fs cfg s (some F) pal false).2.1
        (some F) pal false).2.2 = (0, 0) ∧
    isOkBuf (ImageSource.as_buffer fs cfg
        (ImageSource.as_buffer fs cfg s (some F) pal false).2.1
        (some F) pal false).1 = true ∧
    ((ImageSource.as_buffer fs cfg
        (ImageSource.as_buffer fs cfg s (some F) pal false).2.1
        (some F) pal false).2.1.buf).isSome = true ∧
    (ImageSource.as_buffer fs cfg
        (ImageSource.as_buffer fs cfg s (some F) pal false).2.1
        (some F) pal false).2.1.format = some F := by
  have hfirst : ImageSource.as_buffer fs cfg s (some F) pal false =
      (.ok (some (img_to_buf i F pal cfg)),
        { s with img := some i, buf := some (img_to_buf i F pal cfg),
                 format := some F }, 1, 1) := by
    rcases hrep with ⟨b, hb, hc, hcl⟩ | ⟨hb, f, hf, hfs⟩
    · exact as_buffer_mismatch_buffer fs cfg s F G pal b i encFmt tr q rle
        himg hb hc hcl hfmt hne
    · exact as_buffer_mismatch_file fs cfg s F G f pal i encFmt tr q rle
        himg hb hf hfs hfmt hne
  have hsecond := as_buffer_matching_format fs cfg
    { s with img := some i, buf := some (img_to_buf i F pal cfg),
             format := some F } F pal (img_to_buf i F pal cfg) rfl
    (img_to_buf_seekable i F pal cfg) rfl
  rw [hfirst]
  simp [hsecond, isOkBuf]

/-- C4 witness: the jpeg-file-backed source converted to png. -/
theorem as_buffer_conversion_idempotent_witness :
    (cSrcFile.img = none ∧ cSrcFile.format = some "jpeg" ∧
      ("jpeg" : String) ≠ "png" ∧ cSrcFile.buf = none ∧
      cSrcFile.fname = some "a.jpg" ∧
      cFS "a.jpg" = some (.encoded cImg "jpeg" none none false)) ∧
    (isOkBuf (ImageSource.as_buffer cFS cCfg cSrcFile (some "png") none
        false).1 = true ∧
      (ImageSource.as_buffer cFS cCfg cSrcFile (some "png") none
        false).2.1.format = some "png" ∧
      (ImageSource.as_buffer cFS cCfg
        (ImageSource.as_buffer cFS cCfg cSrcFile (some "png") none false).2.1
        (some "png") none false).2.2 = (0, 0)) := by
  have h := as_buffer_conversion_idempotent cFS cCfg cSrcFile "png" "jpeg"
    none cImg "jpeg" none none false rfl rfl (by decide)
    (Or.inr ⟨rfl, "a.jpg", rfl, rfl⟩)
  exact ⟨⟨rfl, rfl, by decide, rfl, rfl, rfl⟩, h.1, h.2.2.1, h.2.2.2.1⟩

/- ------------------------------------------------------------------ -/
/- C5                                                                  -/
/- ------------------------------------------------------------------ -/

/-- The merge canvas: RGBA filled with the background color and zero
alpha when transparency is requested, else RGB filled with the
background color. -/
def mergeCanvas (t : Bool) (sz : Nat × Nat) (bg : Nat × Nat × Nat) : Img :=
  if t then Img.new .RGBA sz { r := bg.1, g := bg.2.1, b := bg.2.2, a := 0 }
  else Img.new .RGB sz { r := bg.1, g := bg.2.1, b := bg.2.2, a := 255 }

/-- The general path on two decoded opaque (RGB) layers: canvas from
the explicit size (else the first layer's size), plain bottom-to-top
pastes, zero decodes, fresh result tagged with the requested format. -/
theorem merge_general_two_rgb (fs : FS) (A B : ImageSource) (a b : Img)
    (fmt bg : String) (rgbv : Nat × Nat × Nat)
    (hA : A.img = some a) (hB : B.img = some b)
    (ha : a.mode = .RGB) (hb : b.mode = .RGB)
    (hbg : getrgb bg = .ok rgbv) (t : Bool) (osize : Option (Nat × Nat)) :
    LayerMerger.merge fs [A, B] fmt osize bg t =
      .ok (.fresh (ImageSource.make (.image
        (((mergeCanvas t (osize.getD a.sizeOf) rgbv).paste a).paste b))
        (some fmt)), 0) := by
  cases osize with
  | none =>
    simp [LayerMerger.merge, LayerMerger.mergeGeneral, ImageSource.as_image,
      ImageSource.size, hA, hB, ha, hb, hbg, mergeCanvas]
  | some sz =>
    simp [LayerMerger.merge, LayerMerger.mergeGeneral, ImageSource.as_image,
      ImageSource.size, hA, hB, ha, hb, hbg, mergeCanvas]

/-- C5: the general merge path sizes the canvas from the explicit size
when given (else the first layer's size), fills it RGBA + zero alpha
when transparency is requested (else RGB), pastes the decoded layers
bottom-to-top (opaque layers overwrite), and returns a fresh
`ImageSource` tagged with the requested format; consequently, for two
equal-size opaque layers A (bottom) and B (top), the merged bitmap is
pixel-for-pixel equal to B. -/
theorem merge_two_opaque_layers (fs : FS) (A B : ImageSource) (a b : Img)
    (fmt bg : String) (rgbv : Nat × Nat × Nat) (w h : Nat)
    (hA : A.img = some a) (hB : B.img = some b)
    (ha : a.mode = .RGB) (hb : b.mode = .RGB)
    (haw : a.width = w) (hah : a.height = h)
    (hbw : b.width = w) (hbh : b.height = h)
    (hbg : getrgb bg = .ok rgbv) :
    (∀ sz : Nat × Nat,
      ((mergeFresh (LayerMerger.merge fs [A, B] fmt (some sz) bg false)).bind
          (fun r => r.img)).map Img.sizeOf = some sz) ∧
    mergeDecodes (LayerMerger.merge fs [A, B] fmt none bg false) = some 0 ∧
    (mergeFresh (LayerMerger.merge fs [A, B] fmt none bg false)).map
        (fun r => r.format) = some (some fmt) ∧
    ((mergeFresh (LayerMerger.merge fs [A, B] fmt none bg false)).bind
        (fun r => r.img)).map Img.mode = some .RGB ∧
    ((mergeFresh (LayerMerger.merge fs [A, B] fmt none bg false)).bind
        (fun r => r.img)).map Img.sizeOf = some (w, h) ∧
    (∀ x y, x < w → y < h →
      ((mergeFresh (LayerMerger.merge fs [A, B] fmt none bg false)).bind
          (fun r => r.img)).map (fun c => c.pix x y) = some (b.pix x y)) ∧
    ((mergeFresh (LayerMerger.merge fs [A, B] fmt none bg true)).bind
        (fun r => r.img)).map Img.mode = some .RGBA := by
  have key := merge_general_two_rgb fs A B a b fmt bg rgbv hA hB ha hb hbg
  refine ⟨?_, ?_, ?_, ?_, ?_, ?_, ?_⟩
  · intro sz
    rw [key false (some sz)]
    simp [mergeFresh, ImageSource.make, ImageSource.set_source, Img.paste,
      mergeCanvas, Img.new, Img.sizeOf]
  · rw [key false none]; rfl
  · rw [key false none]; rfl
  · rw [key false none]
    simp [mergeFresh, ImageSource.make, ImageSource.set_source, Img.paste,
      mergeCanvas, Img.new]
  · rw [key false none]
    simp [mergeFresh, ImageSource.make, ImageSource.set_source, Img.paste,
      mergeCanvas, Img.new, Img.sizeOf, haw, hah]
  · intro x y hx hy
    have hxb : x < b.width := by rw [hbw]; exact hx
    have hyb : y < b.height := by rw [hbh]; exact hy
    rw [key false none]
    simp only [mergeFresh, ImageSource.make, ImageSource.set_source]
    simp [Img.paste, hxb, hyb, pxTo, hb, mergeCanvas, Img.new]
  · rw [key true none]
    simp [mergeFresh, ImageSource.make, ImageSource.set_source, Img.paste,
      mergeCanvas, Img.new]

/-- C5 witness: two concrete 1×1 opaque layers; the merged pixel is the
top layer's. -/
theorem merge_two_opaque_layers_witness :
    ((ImageSource.make (.image cImg) (some "png")).img = some cImg ∧
      (ImageSource.make (.image cImgB) (some "png")).img = some cImgB ∧
      cImg.mode = .RGB ∧ cImgB.mode = .RGB ∧
      cImg.width = 1 ∧ cImg.height = 1 ∧ cImgB.width = 1 ∧ cImgB.height = 1 ∧
      getrgb "#ffffff" = .ok (255, 255, 255)) ∧
    (∀ x y, x < 1 → y < 1 →
      ((mergeFresh (LayerMerger.merge cFS
          [ImageSource.make (.image cImg) (some "png"),
           ImageSource.make (.image cImgB) (some "png")] "png" none "#ffffff"
          false)).bind (fun r => r.img)).map (fun c => c.pix x y) =
        some (cImgB.pix x y)) :=
  ⟨⟨rfl, rfl, rfl, rfl, rfl, rfl, rfl, rfl, rfl⟩,
    (merge_two_opaque_layers cFS (ImageSource.make (.image cImg) (some "png"))
      (ImageSource.make (.image cImgB) (some "png")) cImg cImgB "png" "#ffffff"
      (255, 255, 255) 1 1 rfl rfl rfl rfl rfl rfl rfl rfl rfl).2.2.2.2.2.1⟩

/- ------------------------------------------------------------------ -/
/- C6                                                                  -/
/- ------------------------------------------------------------------ -/

theorem mem_dedupFstAux {α : Type} [DecidableEq α] (a : α) (l : List α)
    (h : a ∈ l) : ∀ seen, a ∉ seen → a ∈ dedupFstAux seen l := by
  induction l with
  | nil => simp at h
  | cons c rest ih =>
    intro seen hns
    by_cases hcs : c ∈ seen
    · rcases List.mem_cons.1 h with h1 | h1
      · exact absurd (h1 ▸ hcs) hns
      · simpa [dedupFstAux, hcs] using ih h1 seen hns
    · by_cases hac : a = c
      · simp [dedupFstAux, hcs, hac]
      · rcases List.mem_cons.1 h with h1 | h1
        · exact absurd h1 hac
        · simp only [dedupFstAux, hcs, if_false]
          exact List.mem_cons_of_mem _ (ih h1 (c :: seen)
            (by simp [hac, hns]))

theorem mem_dedupFst {α : Type} [DecidableEq α] (a : α) (l : List α)
    (h : a ∈ l) : a ∈ dedupFst l :=
  mem_dedupFstAux a l h [] (by simp)

theorem idxOfFst_lt_length {α : Type} [DecidableEq α] (a : α) (l : List α)
    (h : a ∈ l) : idxOfFst a l < l.length := by
  induction l with
  | nil => simp at h
  | cons d rest ih =>
    by_cases hd : d = a
    · simp [idxOfFst, hd]
    · rcases List.mem_cons.1 h with h1 | h1
      · exact absurd h1.symm hd
      · simpa [idxOfFst, hd] using ih h1

theorem getD_idxOfFst {α : Type} [DecidableEq α] (a dflt : α) (l : List α)
    (h : a ∈ l) : l.getD (idxOfFst a l) dflt = a := by
  induction l with
  | nil => simp at h
  | cons d rest ih =>
    by_cases hd : d = a
    · simp [idxOfFst, hd]
    · rcases List.mem_cons.1 h with h1 | h1
      · exact absurd h1.symm hd
      · simpa [idxOfFst, hd] using ih h1

/-- Every in-bounds pixel's RGB triple occurs among the bitmap's
distinct colors. -/
theorem rgb3_mem_distinctRGB (img : Img) (x y : Nat) (hx : x < img.width)
    (hy : y < img.height) : (img.pix x y).rgb3 ∈ img.distinctRGB := by
  apply mem_dedupFst
  exact List.mem_flatMap.2 ⟨y, List.mem_range.2 hy,
    List.mem_map.2 ⟨x, List.mem_range.2 hx, rfl⟩⟩

/-- C6: paletted encoding of an RGBA bitmap (format png/gif) quantizes
to an adaptive palette of at most 255 colors, forces palette index 255
for every pixel with alpha ≤ 128, keeps every pixel with alpha > 128
on an opaque palette entry holding its RGB color (binary threshold, no
partial alpha), and records 255 as the transparency entry; a bitmap
without an alpha channel is quantized to at most 256 palette entries
directly, with no transparency entry. -/
theorem img_to_buf_paletted_quantization (i : Img) (fmtStr : String)
    (cfg : Config) (hfmt : fmtStr = "png" ∨ fmtStr = "gif") :
    (i.mode = .RGBA → i.distinctRGB.length ≤ 255 →
      (img_to_buf i fmtStr (some true) cfg).transparencyOpt = some 255 ∧
      ∀ q', (img_to_buf i fmtStr (some true) cfg).savedImg = some q' →
        q'.mode = .P ∧ q'.palette.length ≤ 255 ∧
        ∀ x y, x < i.width → y < i.height →
          ((i.pix x y).a ≤ 128 → (q'.pix x y).r = 255) ∧
          (128 < (i.pix x y).a → (q'.pix x y).r < 255 ∧
            q'.palette.getD (q'.pix x y).r (0, 0, 0) = (i.pix x y).rgb3)) ∧
    (i.mode ≠ .RGBA →
      (img_to_buf i fmtStr (some true) cfg).transparencyOpt = none ∧
      ∀ q', (img_to_buf i fmtStr (some true) cfg).savedImg = some q' →
        q'.mode = .P ∧ q'.palette.length ≤ 256 ∧
        (i.distinctRGB.length ≤ 256 →
          ∀ x y, x < i.width → y < i.height →
            q'.palette.getD (q'.pix x y).r (0, 0, 0) = (i.pix x y).rgb3)) := by
  constructor
  · intro hmode hd
    have hpal : i.distinctRGB.take 255 = i.distinctRGB :=
      List.take_of_length_le hd
    have hsaved : (img_to_buf i fmtStr (some true) cfg).savedImg =
        some ((quantize i 255).pasteIndex 255
          (fun x y => if (i.pix x y).a ≤ 128 then 255 else 0)) := by
      rcases hfmt with rfl | rfl <;>
        simp [img_to_buf, Buf.savedImg, hmode]
    refine ⟨by rcases hfmt with rfl | rfl <;>
      simp [img_to_buf, Buf.transparencyOpt, hmode], ?_⟩
    intro q' hq
    rw [hsaved] at hq
    injection hq with hq
    subst hq
    refine ⟨rfl, ?_, ?_⟩
    · simp [Img.pasteIndex, quantize]
    · intro x y hx hy
      constructor
      · intro halpha
        simp [Img.pasteIndex, quantize, hx, hy, halpha]
      · intro halpha
        have hnle : ¬ (i.pix x y).a ≤ 128 := Nat.not_le.2 halpha
        have hmem : (i.pix x y).rgb3 ∈ i.distinctRGB :=
          rgb3_mem_distinctRGB i x y hx hy
        constructor
        · have hlt : idxOfFst (i.pix x y).rgb3 i.distinctRGB <
              i.distinctRGB.length := idxOfFst_lt_length _ _ hmem
          simp only [Img.pasteIndex, quantize, hpal]
          simp [hx, hy, hnle]
          exact lt_of_lt_of_le hlt hd
        · simp only [Img.pasteIndex, quantize, hpal]
          simp [hx, hy, hnle]
          simpa using getD_idxOfFst (i.pix x y).rgb3 (0, 0, 0) i.distinctRGB hmem
  · intro hmode
    have hsaved : (img_to_buf i fmtStr (some true) cfg).savedImg =
        some (quantize i) := by
      rcases hfmt with rfl | rfl <;>
        simp [img_to_buf, Buf.savedImg, hmode]
    refine ⟨by rcases hfmt with rfl | rfl <;>
      simp [img_to_buf, Buf.transparencyOpt, hmode], ?_⟩
    intro q' hq
    rw [hsaved] at hq
    injection hq with hq
    subst hq
    refine ⟨rfl, ?_, ?_⟩
    · simp [quantize]
    · intro hd x y hx hy
      have hpal : i.distinctRGB.take 256 = i.distinctRGB :=
        List.take_of_length_le hd
      have hmem : (i.pix x y).rgb3 ∈ i.distinctRGB :=
        rgb3_mem_distinctRGB i x y hx hy
      simp only [quantize, hpal]
      exact getD_idxOfFst _ _ _ hmem

/-- A 2×1 RGBA bitmap with one fully transparent and one fully opaque
pixel. -/
def cRGBA : Img :=
  { mode := .RGBA, width := 2, height := 1,
    pix := fun x _ => if x = 0 then ⟨9, 8, 7, 0⟩ else ⟨1, 2, 3, 255⟩ }

/-- The quantized-and-masked bitmap the paletted png encoding of
`cRGBA` serializes. -/
def cQ : Img :=
  (quantize cRGBA 255).pasteIndex 255
    (fun x y => if (cRGBA.pix x y).a ≤ 128 then 255 else 0)

/-- C6 witness: the paletted png encoding of `cRGBA`. -/
theorem img_to_buf_paletted_quantization_witness :
    (cRGBA.mode = .RGBA ∧ cRGBA.distinctRGB.length ≤ 255 ∧
      (cRGBA.pix 0 0).a ≤ 128 ∧ 128 < (cRGBA.pix 1 0).a ∧
      (img_to_buf cRGBA "png" (some true) cCfg).savedImg = some cQ) ∧
    ((img_to_buf cRGBA "png" (some true) cCfg).transparencyOpt = some 255 ∧
      (cQ.pix 0 0).r = 255 ∧ (cQ.pix 1 0).r < 255 ∧
      cQ.palette.getD (cQ.pix 1 0).r (0, 0, 0) = (cRGBA.pix 1 0).rgb3) := by
  have happ := (img_to_buf_paletted_quantization cRGBA "png" cCfg
    (Or.inl rfl)).1 rfl (by decide)
  have hq := happ.2 cQ rfl
  exact ⟨⟨rfl, by decide, by decide, by decide, rfl⟩,
    happ.1, (hq.2.2 0 0 (by decide) (by decide)).1 (by decide),
    ((hq.2.2 1 0 (by decide) (by decide)).2 (by decide)).1,
    ((hq.2.2 1 0 (by decide) (by decide)).2 (by decide)).2⟩

/- ------------------------------------------------------------------ -/
/- C9                                                                  -/
/- ------------------------------------------------------------------ -/

theorem dedupFstAux_eq_nil {α : Type} [DecidableEq α] (l : List α) :
    ∀ seen, (∀ e ∈ l, e ∈ seen) → dedupFstAux seen l = [] := by
  induction l with
  | nil => intro seen _; rfl
  | cons c rest ih =>
    intro seen h
    have hc : c ∈ seen := h c (List.mem_cons_self _ _)
    simp only [dedupFstAux, hc, if_true]
    exact ih seen fun e he => h e (List.mem_cons_of_mem _ he)

/-- Deduplicating a nonempty list whose elements are all `c` gives `[c]`. -/
theorem dedupFst_all_eq {α : Type} [DecidableEq α] (l : List α) (c : α)
    (hne : l ≠ []) (h : ∀ e ∈ l, e = c) : dedupFst l = [c] := by
  cases l with
  | nil => exact absurd rfl hne
  | cons d rest =>
    have hd : d = c := h d (List.mem_cons_self _ _)
    subst hd
    have : dedupFstAux [d] rest = [] := by
      apply dedupFstAux_eq_nil
      intro e he
      have : e = d := h e (List.mem_cons_of_mem _ he)
      simp [this]
    simp [dedupFst, dedupFstAux, this]

theorem two_le_length_of_mem_ne {α : Type} (a b : α) (m : List α)
    (ha : a ∈ m) (hb : b ∈ m) (hne : a ≠ b) : 2 ≤ m.length := by
  cases m with
  | nil => simp at ha
  | cons x t =>
    cases t with
    | nil =>
      simp only [List.mem_singleton] at ha hb
      exact absurd (ha.trans hb.symm) hne
    | cons y u =>
      simp only [List.length_cons]
      omega

theorem colorAt_mem_colorList (img : Img) (x y : Nat) (hx : x < img.width)
    (hy : y < img.height) : img.colorAt x y ∈ img.colorList :=
  List.mem_flatMap.2 ⟨y, List.mem_range.2 hy,
    List.mem_map.2 ⟨x, List.mem_range.2 hx, rfl⟩⟩

theorem colorList_all_eq (img : Img) (c : ColorVal)
    (huni : ∀ x y, x < img.width → y < img.height → img.colorAt x y = c) :
    ∀ e ∈ img.colorList, e = c := by
  intro e he
  obtain ⟨y, hy, he2⟩ := List.mem_flatMap.1 he
  obtain ⟨x, hx, rfl⟩ := List.mem_map.1 he2
  exact huni x y (List.mem_range.1 hx) (List.mem_range.1 hy)

/-- C9: on a nonempty bitmap whose pixels all have the same color, the
solid-color detector returns that color — resolved through the palette
to an RGB triple for an indexed (mode-`P`) bitmap, the raw color value
otherwise — and on a bitmap with two differing pixels it reports
non-uniformity (Python `False`). -/
theorem is_single_color_image_detection (img : Img) (hw : 0 < img.width)
    (hh : 0 < img.height) :
    ((∀ x y, x < img.width → y < img.height →
        img.colorAt x y = img.colorAt 0 0) →
      is_single_color_image img = .ok (some (
        if img.mode = .P then
          .rgb (img.getpalette.getD ((img.pix 0 0).r * 3) 0,
                img.getpalette.getD ((img.pix 0 0).r * 3 + 1) 0,
                img.getpalette.getD ((img.pix 0 0).r * 3 + 2) 0)
        else img.colorAt 0 0))) ∧
    (∀ x1 y1 x2 y2, x1 < img.width → y1 < img.height → x2 < img.width →
      y2 < img.height → img.colorAt x1 y1 ≠ img.colorAt x2 y2 →
      is_single_color_image img = .ok none) := by
  constructor
  · intro huni
    have hmem0 : img.colorAt 0 0 ∈ img.colorList :=
      colorAt_mem_colorList img 0 0 hw hh
    have hded : dedupFst img.colorList = [img.colorAt 0 0] :=
      dedupFst_all_eq _ _ (List.ne_nil_of_mem hmem0)
        (colorList_all_eq img _ huni)
    by_cases hm : img.mode = .P
    · have hc0 : img.colorAt 0 0 = .pIdx (img.pix 0 0).r := by
        simp [Img.colorAt, hm]
      simp [is_single_color_image, Img.getcolors, hded, hm, hc0]
    · simp [is_single_color_image, Img.getcolors, hded, hm]
  · intro x1 y1 x2 y2 hx1 hy1 hx2 hy2 hne
    have h1 : img.colorAt x1 y1 ∈ img.colorList :=
      colorAt_mem_colorList img x1 y1 hx1 hy1
    have h2 : img.colorAt x2 y2 ∈ img.colorList :=
      colorAt_mem_colorList img x2 y2 hx2 hy2
    have hlen : 2 ≤ (dedupFst img.colorList).length :=
      two_le_length_of_mem_ne _ _ _ (mem_dedupFst _ _ h1)
        (mem_dedupFst _ _ h2) hne
    have hgt : 1 < (dedupFst img.colorList).length := hlen
    simp [is_single_color_image, Img.getcolors, hgt]

/-- A 2×1 RGB bitmap with two distinct colors. -/
def cTwo : Img :=
  { mode := .RGB, width := 2, height := 1,
    pix := fun x _ => if x = 0 then ⟨0, 0, 0, 255⟩ else ⟨255, 255, 255, 255⟩ }

/-- A 1×1 paletted bitmap whose single pixel points at palette entry 2. -/
def cPal : Img :=
  { mode := .P, width := 1, height := 1, pix := fun _ _ => ⟨2, 0, 0, 255⟩,
    palette := [(1, 1, 1), (2, 2, 2), (7, 8, 9)] }

/-- C9 witness: a uniform RGB bitmap yields its color, a uniform
paletted bitmap yields the palette-resolved triple, and a two-color
bitmap yields non-uniformity. -/
theorem is_single_color_image_detection_witness :
    (0 < cImg.width ∧ 0 < cImg.height ∧ 0 < cPal.width ∧ 0 < cPal.height ∧
      0 < cTwo.width ∧ 0 < cTwo.height ∧
      cTwo.colorAt 0 0 ≠ cTwo.colorAt 1 0) ∧
    (is_single_color_image cImg = .ok (some (.rgb (10, 20, 30))) ∧
      is_single_color_image cPal = .ok (some (.rgb (7, 8, 9))) ∧
      is_single_color_image cTwo = .ok none) := by
  refine ⟨⟨by decide, by decide, by decide, by decide, by decide, by decide,
    by decide⟩, ?_, ?_, ?_⟩
  · exact ((is_single_color_image_detection cImg (by decide) (by decide)).1
      fun _ _ _ _ => rfl).trans rfl
  · exact ((is_single_color_image_detection cPal (by decide) (by decide)).1
      fun _ _ _ _ => rfl).trans rfl
  · exact (is_single_color_image_detection cTwo (by decide) (by decide)).2
      0 0 1 0 (by decide) (by decide) (by decide) (by decide) (by decide)

end MapproxyImage
